import Mathlib

set_option maxHeartbeats 1000000

/- Shallow embedding of the repository: the Docker-based code execution
service (docker-executor.ts, class DockerExecutor) and the WebSocket
collaboration service (class WebSocketService). JavaScript runtime details
that the code relies on (truthiness of `||`, Node `child_process.exec`
rejection shapes, `fs.rm` with `force: true`) are embedded explicitly. -/

/-- JavaScript `a || b` on an optional string: `undefined` and the empty
string are both falsy, so both fall back to the default. -/
def jsOrStr (v : Option String) (d : String) : String :=
  match v with
  | none => d
  | some s => if s = "" then d else s

/-- JavaScript `a || b` on an optional numeric error code: `undefined`,
`null` and `0` are falsy. -/
def jsOrInt (v : Option Int) (d : Int) : Int :=
  match v with
  | none => d
  | some n => if n = 0 then d else n

/-- JavaScript `a || b` on an optional millisecond count: `undefined` and
`0` are falsy. -/
def jsOrNat (v : Option Nat) (d : Nat) : Nat :=
  match v with
  | none => d
  | some n => if n = 0 then d else n

/-- Executable check that the list `n` occurs at the start of `h`. -/
def isPre : List Char → List Char → Bool
  | [], _ => true
  | _ :: _, [] => false
  | a :: as, b :: bs => (a == b) && isPre as bs

/-- Executable check that the list `n` occurs contiguously inside `h`. -/
def isSub (n : List Char) : List Char → Bool
  | [] => isPre n []
  | c :: t => isPre n (c :: t) || isSub n t

/-- A needle occurs at the start of itself followed by anything. -/
theorem isPre_append_self (n b : List Char) : isPre n (n ++ b) = true := by
  induction n with
  | nil => simp [isPre]
  | cons a as ih => simp [isPre, ih]

/-- Characters of a matched starting segment belong to the haystack. -/
theorem isPre_mem {n h : List Char} (hp : isPre n h = true) {c : Char}
    (hc : c ∈ n) : c ∈ h := by
  induction n generalizing h with
  | nil => cases hc
  | cons a as ih =>
    cases h with
    | nil => simp [isPre] at hp
    | cons b bs =>
      simp only [isPre, Bool.and_eq_true, beq_iff_eq] at hp
      rcases List.mem_cons.mp hc with rfl | hc
      · exact hp.1 ▸ List.mem_cons_self _ _
      · exact List.mem_cons_of_mem _ (ih hp.2 hc)

/-- The empty needle occurs in every haystack. -/
theorem isSub_nil (h : List Char) : isSub [] h = true := by
  cases h <;> simp [isSub, isPre]

/-- A needle occurs in a haystack that contains it as a middle segment. -/
theorem isSub_middle (a n b : List Char) : isSub n (a ++ (n ++ b)) = true := by
  induction a with
  | nil =>
    cases n with
    | nil => simpa using isSub_nil b
    | cons x xs =>
      show isSub (x :: xs) (x :: (xs ++ b)) = true
      have h1 : isPre (x :: xs) ((x :: xs) ++ b) = true := isPre_append_self _ _
      simp only [isSub]
      simp only [List.cons_append] at h1
      simp [h1]
  | cons y ys ih =>
    show isSub n (y :: (ys ++ (n ++ b))) = true
    simp only [isSub, ih, Bool.or_true]

/-- Characters of a matched needle belong to the haystack. -/
theorem isSub_mem {n h : List Char} (hs : isSub n h = true) {c : Char}
    (hc : c ∈ n) : c ∈ h := by
  induction h with
  | nil =>
    cases n with
    | nil => cases hc
    | cons a as => simp [isSub, isPre] at hs
  | cons x t ih =>
    simp only [isSub, Bool.or_eq_true] at hs
    rcases hs with hs | hs
    · exact isPre_mem hs hc
    · exact List.mem_cons_of_mem _ (ih hs)

/-- String-level containment test, as occurrence of the character list. -/
def strContains (hay needle : String) : Bool := isSub needle.data hay.data

/-- Containment holds for an explicit middle segment (list form used to
normalise string appends). -/
theorem strContains_of_data {hay needle : String} (a b : List Char)
    (h : hay.data = a ++ (needle.data ++ b)) : strContains hay needle = true := by
  unfold strContains
  rw [h]
  exact isSub_middle _ _ _

/- ===== docker-executor.ts : constants and language tables ===== -/

def TEMP_DIR : String := "/tmp/code-execution"

def DEFAULT_TIMEOUT : Nat := 10000

def DEFAULT_MEMORY : String := "256m"

/-- JavaScript property lookup on an object literal falls through to the
prototype chain: off the literal's own keys, `obj[k]` yields the inherited
`Object.prototype` member for its property names — a truthy function (or,
for `__proto__`, the prototype object itself) — and only `none` (JS
`undefined`) beyond that. The carried string is the value's
string-coercion, which is what the template literals interpolate; all
these values are truthy, so the `||` fallbacks do not fire on them. -/
def protoLookup (k : String) : Option String :=
  if k = "constructor" then some "function Object() \x7b [native code] \x7d"
  else if k = "hasOwnProperty" then some "function hasOwnProperty() \x7b [native code] \x7d"
  else if k = "isPrototypeOf" then some "function isPrototypeOf() \x7b [native code] \x7d"
  else if k = "propertyIsEnumerable" then some "function propertyIsEnumerable() \x7b [native code] \x7d"
  else if k = "toLocaleString" then some "function toLocaleString() \x7b [native code] \x7d"
  else if k = "toString" then some "function toString() \x7b [native code] \x7d"
  else if k = "valueOf" then some "function valueOf() \x7b [native code] \x7d"
  else if k = "__defineGetter__" then some "function __defineGetter__() \x7b [native code] \x7d"
  else if k = "__defineSetter__" then some "function __defineSetter__() \x7b [native code] \x7d"
  else if k = "__lookupGetter__" then some "function __lookupGetter__() \x7b [native code] \x7d"
  else if k = "__lookupSetter__" then some "function __lookupSetter__() \x7b [native code] \x7d"
  else if k = "__proto__" then some "[object Object]"
  else none

/-- `LANGUAGE_IMAGES` object: Docker image per supported language; own
keys first, then the inherited `Object.prototype` members. -/
def LANGUAGE_IMAGES (language : String) : Option String :=
  if language = "javascript" then some "node:18-alpine"
  else if language = "typescript" then some "node:18-alpine"
  else if language = "python" then some "python:3.10-alpine"
  else if language = "java" then some "openjdk:17-alpine"
  else if language = "go" then some "golang:1.19-alpine"
  else if language = "rust" then some "rust:1.67-alpine"
  else if language = "ruby" then some "ruby:3.2-alpine"
  else if language = "php" then some "php:8.2-alpine"
  else if language = "csharp" then some "mcr.microsoft.com/dotnet/sdk:7.0-alpine"
  else protoLookup language

/-- `LANGUAGE_EXTENSIONS` object: source file extension per supported
language; own keys first, then the inherited `Object.prototype` members. -/
def LANGUAGE_EXTENSIONS (language : String) : Option String :=
  if language = "javascript" then some "js"
  else if language = "typescript" then some "ts"
  else if language = "python" then some "py"
  else if language = "java" then some "java"
  else if language = "go" then some "go"
  else if language = "rust" then some "rs"
  else if language = "ruby" then some "rb"
  else if language = "php" then some "php"
  else if language = "csharp" then some "cs"
  else protoLookup language

/-- `EXECUTION_COMMANDS` object: run command per supported language; own
keys first, then the inherited `Object.prototype` members. -/
def EXECUTION_COMMANDS (language : String) : Option String :=
  if language = "javascript" then some "node"
  else if language = "typescript" then some "ts-node"
  else if language = "python" then some "python"
  else if language = "java" then some "java"
  else if language = "go" then some "go run"
  else if language = "rust" then some "rustc -o /tmp/output && /tmp/output"
  else if language = "ruby" then some "ruby"
  else if language = "php" then some "php"
  else if language = "csharp" then some "dotnet run"
  else protoLookup language

/-- The closed set of supported language identifiers (the keys of the three
registry objects above). -/
def supportedLanguages : List String :=
  ["javascript", "typescript", "python", "java", "go", "rust", "ruby",
   "php", "csharp"]

/-- `interface ExecutionResult` (the optional `memoryUsage` field is never
set by the code and is omitted). `exitCode` is a JavaScript number. -/
structure ExecutionResult where
  stdout : String
  stderr : String
  exitCode : Int
  executionTime : Nat
  deriving Repr, DecidableEq

/-- `interface ExecutionOptions`. Optional fields are `Option`; the JS
`networkDisabled?: boolean` is used only under `?:`, where `undefined`
behaves as `false`, so it is embedded as `Bool`. -/
structure ExecutionOptions where
  timeout : Option Nat
  memoryLimit : Option String
  networkDisabled : Bool
  language : String
  deriving Repr, DecidableEq

/- ===== docker-executor.ts : filesystem, exec and world model ===== -/

/-- Host-filesystem and process state threaded through `executeCode`:
existing workspace directories, written files with their contents, and the
command strings handed to `child_process.exec`. -/
structure World where
  dirs : List String
  files : List (String × String)
  launched : List String
  deriving Repr, DecidableEq

/-- Behaviour of one `child_process.exec(dockerCommand, { timeout })` call.
`resolved` is a fulfilled promise (exit code 0). `rejected` carries the
fields the catch block reads off the error object: `stdout`/`stderr`
(captured output, absent for pre-spawn failures), `code` (exit code, absent
when the child was killed by a signal, e.g. on timeout) and `message`.
`elapsed` is the wall-clock time the call took, as observed by the two
surrounding `Date.now()` reads. -/
inductive ExecOutcome where
  | resolved (stdout stderr : String) (elapsed : Nat)
  | rejected (stdout stderr : Option String) (code : Option Int)
      (message : String) (elapsed : Nat)
  deriving Repr, DecidableEq

/-- Nondeterministic environment of one `executeCode` call: the generated
uuid session id, injected failures of `fs.mkdir`, `fs.writeFile` and
`fs.rm` (the carried string is the thrown error's message), and the
behaviour of the sandboxed process. -/
structure ExecEnv where
  sessionId : String
  mkdirFails : Option String
  writeFails : Option String
  outcome : ExecOutcome
  rmFails : Option String
  deriving Repr, DecidableEq

/-- `createTempDir`: joins the scratch root with the session id, performs
`fs.mkdir` (which may throw) and returns the directory path. -/
def createTempDir (env : ExecEnv) (w : World) :
    Except String (String × World) :=
  match env.mkdirFails with
  | some m => .error m
  | none =>
    let dirPath := TEMP_DIR ++ "/" ++ env.sessionId
    .ok (dirPath, { w with dirs := dirPath :: w.dirs })

/-- The filename `code.<ext>` chosen by `writeCodeToFile`:
`LANGUAGE_EXTENSIONS[language] || 'txt'`. -/
def sourceFilename (language : String) : String :=
  "code." ++ jsOrStr (LANGUAGE_EXTENSIONS language) "txt"

/-- `writeCodeToFile`: resolves the extension, writes the code verbatim to
`<dirPath>/code.<ext>` (the write may throw) and returns the file path. -/
def writeCodeToFile (code dirPath language : String) (env : ExecEnv)
    (w : World) : Except String (String × World) :=
  match env.writeFails with
  | some m => .error m
  | none =>
    let filePath := dirPath ++ "/" ++ sourceFilename language
    .ok (filePath, { w with files := (filePath, code) :: w.files })

/-- `path.basename`: the component after the last slash, as a character
fold that resets at each `/`. -/
def lastComponent (l : List Char) : List Char :=
  l.foldl (fun acc c => if c = '/' then [] else acc ++ [c]) []

/-- `path.basename` on strings (paths here never end in a slash). -/
def basename (s : String) : String := String.mk (lastComponent s.data)

/-- `fs.rm(dirPath, { recursive: true, force: true })`: with `force` the
call succeeds even when the directory is already absent; an injected
infrastructure failure is a thrown error. -/
def fsRm (w : World) (dirPath : String) (rmFails : Option String) :
    Except String World :=
  match rmFails with
  | some m => .error m
  | none => .ok { w with dirs := w.dirs.filter (fun d => decide (d ≠ dirPath)) }

/-- `cleanupTempDir`: try `fs.rm`, catch and log any error. Never throws;
on failure the directory is left as it was. -/
def cleanupTempDir (w : World) (dirPath : String) (rmFails : Option String) :
    World :=
  match fsRm w dirPath rmFails with
  | .error _ => w
  | .ok w2 => w2

/-- `getDockerCommand`: the template
`docker run --rm S{networkFlag} -m S{memoryLimit} -v S{dirPath}:/code -w /code S{image} S{command} S{filename}`
(the `S` stands for the interpolation dollar) with
`image = LANGUAGE_IMAGES[language] || 'alpine:latest'`,
`command = EXECUTION_COMMANDS[language] || 'sh'`,
`filename = path.basename(filePath)`,
`memoryLimit = options.memoryLimit || DEFAULT_MEMORY` and
`networkFlag = options.networkDisabled ? '--network=none' : ''`. -/
def getDockerCommand (filePath dirPath language : String)
    (options : ExecutionOptions) : String :=
  let image := jsOrStr (LANGUAGE_IMAGES language) "alpine:latest"
  let command := jsOrStr (EXECUTION_COMMANDS language) "sh"
  let filename := basename filePath
  let memoryLimit := jsOrStr options.memoryLimit DEFAULT_MEMORY
  let networkFlag := if options.networkDisabled then "--network=none" else ""
  "docker run --rm " ++ networkFlag ++ " -m " ++ memoryLimit ++ " -v " ++
    dirPath ++ ":/code -w /code " ++ image ++ " " ++ command ++ " " ++ filename

/-- The command `executeCode` composes for a given code text, options and
generated session id (its dataflow: workspace path from the session id,
file path from `writeCodeToFile`, then `getDockerCommand`). -/
def composedCommand (code : String) (options : ExecutionOptions)
    (sessionId : String) : String :=
  let dirPath := TEMP_DIR ++ "/" ++ sessionId
  let filePath := dirPath ++ "/" ++ sourceFilename options.language
  let _unusedCode := code
  getDockerCommand filePath dirPath options.language options

/-- The result object built by the try/catch of `executeCode`: the
fulfilled branch records exit code 0 and verbatim streams; the catch branch
reads `error.stdout || ''`, `error.stderr || error.message`,
`error.code || 1`; both measure `endTime - startTime`. -/
def resultOfOutcome (o : ExecOutcome) : ExecutionResult :=
  match o with
  | .resolved out err t =>
    { stdout := out, stderr := err, exitCode := 0, executionTime := t }
  | .rejected out err code msg t =>
    { stdout := jsOrStr out "", stderr := jsOrStr err msg,
      exitCode := jsOrInt code 1, executionTime := t }

/-- `executeCode`: create workspace, write the source file, build the
command, run it under a timeout inside try/catch/finally, clean up in the
finally, return the result. Thrown errors surface as `.error`. Note that
`writeCodeToFile` is called before the `try`, so its failure propagates
without reaching the `finally` cleanup. -/
def executeCode (code : String) (options : ExecutionOptions) (env : ExecEnv)
    (w : World) : Except String ExecutionResult × World :=
  match createTempDir env w with
  | .error m => (.error m, w)
  | .ok (dirPath, w1) =>
    match writeCodeToFile code dirPath options.language env w1 with
    | .error m => (.error m, w1)
    | .ok (filePath, w2) =>
      let dockerCommand := getDockerCommand filePath dirPath options.language options
      let w3 := { w2 with launched := w2.launched ++ [dockerCommand] }
      let result := resultOfOutcome env.outcome
      let w4 := cleanupTempDir w3 dirPath env.rmFails
      (.ok result, w4)

/-- An `Except` value that was not thrown. -/
def exOk {ε α : Type} : Except ε α → Bool
  | .ok _ => true
  | .error _ => false

/- ===== supporting lemmas about the command structure ===== -/

/-- Folding the basename reset function over slash-free input appends it. -/
theorem foldl_slashfree (b : List Char) : ∀ acc : List Char, ('/') ∉ b →
    b.foldl (fun acc c => if c = '/' then [] else acc ++ [c]) acc = acc ++ b := by
  induction b with
  | nil => intro acc _; simp
  | cons c t ih =>
    intro acc h
    simp only [List.mem_cons, not_or] at h
    simp only [List.foldl_cons]
    rw [if_neg (fun e : c = '/' => h.1 e.symm)]
    rw [ih _ h.2]
    simp

/-- The component after the final slash of a path. -/
theorem lastComponent_append (a b : List Char) (h : ('/') ∉ b) :
    lastComponent (a ++ '/' :: b) = b := by
  unfold lastComponent
  rw [List.foldl_append]
  simp only [List.foldl_cons, if_pos rfl]
  exact foldl_slashfree b [] h

/-- `path.basename` of a directory-slash-filename join is the filename,
when the filename itself is slash-free. -/
theorem basename_append (dir fname : String) (h : ('/') ∉ fname.data) :
    basename (dir ++ "/" ++ fname) = fname := by
  unfold basename
  have e : (dir ++ "/" ++ fname).data = dir.data ++ '/' :: fname.data := by
    simp [String.data_append, show ("/" : String).data = ['/'] by decide]
  rw [e, lastComponent_append _ _ h]

/-- The inherited prototype lookup takes one of finitely many values. -/
theorem protoLookup_cases (k : String) :
    protoLookup k = none ∨
      protoLookup k ∈ [some "function Object() \x7b [native code] \x7d",
        some "function hasOwnProperty() \x7b [native code] \x7d",
        some "function isPrototypeOf() \x7b [native code] \x7d",
        some "function propertyIsEnumerable() \x7b [native code] \x7d",
        some "function toLocaleString() \x7b [native code] \x7d",
        some "function toString() \x7b [native code] \x7d",
        some "function valueOf() \x7b [native code] \x7d",
        some "function __defineGetter__() \x7b [native code] \x7d",
        some "function __defineSetter__() \x7b [native code] \x7d",
        some "function __lookupGetter__() \x7b [native code] \x7d",
        some "function __lookupSetter__() \x7b [native code] \x7d",
        some "[object Object]"] := by
  unfold protoLookup
  repeat' split
  all_goals simp

/-- The extension registry resolves to an own key's value or falls through
to the prototype chain. -/
theorem LANGUAGE_EXTENSIONS_cases (l : String) :
    LANGUAGE_EXTENSIONS l ∈ [some "js", some "ts", some "py", some "java",
        some "go", some "rs", some "rb", some "php", some "cs"] ∨
      LANGUAGE_EXTENSIONS l = protoLookup l := by
  unfold LANGUAGE_EXTENSIONS
  repeat' split
  all_goals simp

/-- The image registry resolves to an own key's value or falls through to
the prototype chain. -/
theorem LANGUAGE_IMAGES_cases (l : String) :
    LANGUAGE_IMAGES l ∈ [some "node:18-alpine", some "python:3.10-alpine",
        some "openjdk:17-alpine", some "golang:1.19-alpine",
        some "rust:1.67-alpine", some "ruby:3.2-alpine", some "php:8.2-alpine",
        some "mcr.microsoft.com/dotnet/sdk:7.0-alpine"] ∨
      LANGUAGE_IMAGES l = protoLookup l := by
  unfold LANGUAGE_IMAGES
  repeat' split
  all_goals simp

/-- The run command registry resolves to an own key's value or falls
through to the prototype chain. -/
theorem EXECUTION_COMMANDS_cases (l : String) :
    EXECUTION_COMMANDS l ∈ [some "node", some "ts-node", some "python",
        some "java", some "go run",
        some "rustc -o /tmp/output && /tmp/output", some "ruby", some "php",
        some "dotnet run"] ∨
      EXECUTION_COMMANDS l = protoLookup l := by
  unfold EXECUTION_COMMANDS
  repeat' split
  all_goals simp

/-- The generated source filename never contains a slash. -/
theorem sourceFilename_noslash (l : String) :
    ('/') ∉ (sourceFilename l).data := by
  unfold sourceFilename
  rcases LANGUAGE_EXTENSIONS_cases l with h | h
  · simp only [List.mem_cons, List.not_mem_nil, or_false] at h
    rcases h with h|h|h|h|h|h|h|h|h <;> rw [h] <;> decide
  · rw [h]
    rcases protoLookup_cases l with h2 | h2
    · rw [h2]; decide
    · simp only [List.mem_cons, List.not_mem_nil, or_false] at h2
      rcases h2 with h2|h2|h2|h2|h2|h2|h2|h2|h2|h2|h2|h2 <;> rw [h2] <;> decide

/-- The generated source filename never contains an equals sign. -/
theorem sourceFilename_no_eqchar (l : String) :
    ('=') ∉ (sourceFilename l).data := by
  unfold sourceFilename
  rcases LANGUAGE_EXTENSIONS_cases l with h | h
  · simp only [List.mem_cons, List.not_mem_nil, or_false] at h
    rcases h with h|h|h|h|h|h|h|h|h <;> rw [h] <;> decide
  · rw [h]
    rcases protoLookup_cases l with h2 | h2
    · rw [h2]; decide
    · simp only [List.mem_cons, List.not_mem_nil, or_false] at h2
      rcases h2 with h2|h2|h2|h2|h2|h2|h2|h2|h2|h2|h2|h2 <;> rw [h2] <;> decide

/-- No resolved image reference contains an equals sign. -/
theorem image_no_eqchar (l : String) :
    ('=') ∉ (jsOrStr (LANGUAGE_IMAGES l) "alpine:latest").data := by
  rcases LANGUAGE_IMAGES_cases l with h | h
  · simp only [List.mem_cons, List.not_mem_nil, or_false] at h
    rcases h with h|h|h|h|h|h|h|h <;> rw [h] <;> decide
  · rw [h]
    rcases protoLookup_cases l with h2 | h2
    · rw [h2]; decide
    · simp only [List.mem_cons, List.not_mem_nil, or_false] at h2
      rcases h2 with h2|h2|h2|h2|h2|h2|h2|h2|h2|h2|h2|h2 <;> rw [h2] <;> decide

/-- No resolved run command contains an equals sign. -/
theorem command_no_eqchar (l : String) :
    ('=') ∉ (jsOrStr (EXECUTION_COMMANDS l) "sh").data := by
  rcases EXECUTION_COMMANDS_cases l with h | h
  · simp only [List.mem_cons, List.not_mem_nil, or_false] at h
    rcases h with h|h|h|h|h|h|h|h|h <;> rw [h] <;> decide
  · rw [h]
    rcases protoLookup_cases l with h2 | h2
    · rw [h2]; decide
    · simp only [List.mem_cons, List.not_mem_nil, or_false] at h2
      rcases h2 with h2|h2|h2|h2|h2|h2|h2|h2|h2|h2|h2|h2 <;> rw [h2] <;> decide

/-- The network flag field of the composed command. -/
def netFlagOf (o : ExecutionOptions) : String :=
  if o.networkDisabled then "--network=none" else ""

/-- The memory limit field of the composed command. -/
def memOf (o : ExecutionOptions) : String := jsOrStr o.memoryLimit DEFAULT_MEMORY

/-- Everything of the composed command after the memory limit field. -/
def cmdAfterMem (o : ExecutionOptions) (sid : String) : String :=
  " -v " ++ TEMP_DIR ++ "/" ++ sid ++ ":/code -w /code " ++
    jsOrStr (LANGUAGE_IMAGES o.language) "alpine:latest" ++ " " ++
    jsOrStr (EXECUTION_COMMANDS o.language) "sh" ++ " " ++
    sourceFilename o.language

/-- The composed command splits into fixed text, the network flag field,
the memory field and the remainder. -/
theorem composedCommand_split (code : String) (o : ExecutionOptions)
    (sid : String) :
    composedCommand code o sid =
      "docker run --rm " ++ netFlagOf o ++ " -m " ++ memOf o ++
        cmdAfterMem o sid := by
  apply String.ext
  simp only [composedCommand, getDockerCommand, netFlagOf, memOf, cmdAfterMem]
  rw [basename_append _ _ (sourceFilename_noslash o.language)]
  simp [String.data_append, List.append_assoc]

/-- After a successful workspace creation and source write, `executeCode`
always returns the result built from the exec outcome, with the world
passed through the finally-block cleanup. -/
theorem executeCode_ok_shape (code : String) (o : ExecutionOptions)
    (env : ExecEnv) (w : World) (h1 : env.mkdirFails = none)
    (h2 : env.writeFails = none) :
    executeCode code o env w =
      (.ok (resultOfOutcome env.outcome),
       cleanupTempDir
         { dirs := (TEMP_DIR ++ "/" ++ env.sessionId) :: w.dirs,
           files := (TEMP_DIR ++ "/" ++ env.sessionId ++ "/" ++
             sourceFilename o.language, code) :: w.files,
           launched := w.launched ++ [composedCommand code o env.sessionId] }
         (TEMP_DIR ++ "/" ++ env.sessionId) env.rmFails) := by
  simp only [executeCode, createTempDir, writeCodeToFile, h1, h2]
  rfl

/-- With the network flag off and an equals-sign-free memory limit and
session id, the composed command contains no equals sign at all. -/
theorem eqchar_not_in_command (code : String) (o : ExecutionOptions)
    (sid : String) (h1 : ('=') ∉ (memOf o).data) (h2 : ('=') ∉ sid.data)
    (h3 : o.networkDisabled = false) :
    ('=') ∉ (composedCommand code o sid).data := by
  rw [composedCommand_split]
  intro hmem
  simp only [String.data_append, List.mem_append, netFlagOf, h3, if_false,
    cmdAfterMem, TEMP_DIR, Bool.false_eq_true,
    show ("" : String).data = [] from rfl, List.not_mem_nil, false_or] at hmem
  casesm* _ ∨ _
  all_goals
    first
      | exact absurd (by assumption) (by decide)
      | exact h1 (by assumption)
      | exact h2 (by assumption)
      | exact image_no_eqchar o.language (by assumption)
      | exact command_no_eqchar o.language (by assumption)
      | exact sourceFilename_no_eqchar o.language (by assumption)

/- ===== concrete fixtures used by witnesses and counterexamples ===== -/

def w0 : World := { dirs := [], files := [], launched := [] }

def optsPy : ExecutionOptions :=
  { timeout := none, memoryLimit := none, networkDisabled := false,
    language := "python" }

def envWF : ExecEnv :=
  { sessionId := "s1", mkdirFails := none,
    writeFails := some "EACCES: permission denied",
    outcome := .resolved "" "" 0, rmFails := none }

def envOk : ExecEnv :=
  { sessionId := "s1", mkdirFails := none, writeFails := none,
    outcome := .resolved "hi" "" 12, rmFails := none }

/- ===== claims C1 and C3 : cleanup and fault propagation ===== -/

/-- C1 counterexample: `writeCodeToFile` is called before the try/finally,
so when the source-file write throws, `executeCode` propagates the error
and the already-created workspace directory survives the call — refuting
the claim that the workspace is removed on every exit path including a
failure while writing the source file. -/
theorem workspace_survives_write_failure :
    executeCode "print(1)" optsPy envWF w0 =
      (.error "EACCES: permission denied",
       { dirs := ["/tmp/code-execution/s1"], files := [], launched := [] }) ∧
    "/tmp/code-execution/s1" ∈ (executeCode "print(1)" optsPy envWF w0).snd.dirs :=
  ⟨rfl, by decide⟩

/-- C1 (amended): once the source file has been written, the workspace is
removed before the call returns on every exit path — success, sandboxed
failure, timeout and launch failure alike — provided the deletion itself
succeeds; an error thrown by the source-file write instead propagates with
the workspace left in place. -/
theorem workspace_removed_after_launch (code : String) (o : ExecutionOptions)
    (env : ExecEnv) (w : World) (h1 : env.mkdirFails = none)
    (h2 : env.writeFails = none) (h3 : env.rmFails = none) :
    (TEMP_DIR ++ "/" ++ env.sessionId) ∉ ((executeCode code o env w).snd).dirs := by
  rw [executeCode_ok_shape code o env w h1 h2]
  simp [cleanupTempDir, fsRm, h3, List.mem_filter]

theorem workspace_removed_after_launch_witness :
    (TEMP_DIR ++ "/" ++ "s1") ∉ ((executeCode "print(1)" optsPy envOk w0).snd).dirs :=
  workspace_removed_after_launch "print(1)" optsPy envOk w0 rfl rfl rfl

/-- C3 counterexample: a workspace I/O failure occurring after workspace
creation — the write of the source file — is not captured into an
`ExecutionResult`; it is raised to the caller as an exception. -/
theorem write_failure_raises :
    (executeCode "print(1)" optsPy envWF w0).fst =
      .error "EACCES: permission denied" ∧
    exOk ((executeCode "print(1)" optsPy envWF w0).fst) = false :=
  ⟨rfl, rfl⟩

/-- C3 (amended): infrastructure failures at or after the launch (including
launch failure and sandboxed-program failure) are captured into a
well-formed `ExecutionResult`; but both a workspace-creation failure and a
source-file write failure propagate to the caller as exceptions. -/
theorem fault_capture_after_write :
    (∀ (c : String) (o : ExecutionOptions) (env : ExecEnv) (w : World),
        env.mkdirFails = none → env.writeFails = none →
        exOk ((executeCode c o env w).fst) = true) ∧
    (∀ (c : String) (o : ExecutionOptions) (env : ExecEnv) (w : World)
        (m : String), env.mkdirFails = none → env.writeFails = some m →
        (executeCode c o env w).fst = .error m) ∧
    (∀ (c : String) (o : ExecutionOptions) (env : ExecEnv) (w : World)
        (m : String), env.mkdirFails = some m →
        (executeCode c o env w).fst = .error m) := by
  refine ⟨fun c o env w h1 h2 => ?_, fun c o env w m h1 h2 => ?_,
    fun c o env w m h1 => ?_⟩
  · rw [executeCode_ok_shape c o env w h1 h2]; rfl
  · simp [executeCode, createTempDir, writeCodeToFile, h1, h2]
  · simp [executeCode, createTempDir, h1]

theorem fault_capture_after_write_witness :
    exOk ((executeCode "print(1)" optsPy envOk w0).fst) = true :=
  fault_capture_after_write.1 "print(1)" optsPy envOk w0 rfl rfl

/- ===== claim C2 : command independent of the code text ===== -/

/-- C2: two-run noninterference of the composed command in the code text —
for any two code texts and otherwise identical environment, the command
strings handed to the shell by `executeCode` are identical; the code text
reaches only the written file, never the command line. -/
theorem command_independent_of_code (c₁ c₂ : String) (o : ExecutionOptions)
    (env : ExecEnv) (w : World) :
    ((executeCode c₁ o env w).snd).launched =
      ((executeCode c₂ o env w).snd).launched := by
  rcases h1 : env.mkdirFails with _ | m1 <;>
    rcases h2 : env.writeFails with _ | m2 <;>
      rcases h3 : env.rmFails with _ | m3 <;>
        simp [executeCode, createTempDir, writeCodeToFile, cleanupTempDir,
          fsRm, h1, h2, h3]

/- ===== claims C4 and C5 : result shapes of the supervisor ===== -/

/-- JS `x || ''` on a present string is the string itself. -/
theorem jsOrStr_some_empty (s : String) : jsOrStr (some s) "" = s := by
  by_cases h : s = "" <;> simp [jsOrStr, h]

def msgTO : String :=
  "Command failed: docker run --rm  -m 256m -v /tmp/code-execution/s1:/code -w /code python:3.10-alpine python code.py"

def envTO : ExecEnv :=
  { sessionId := "s1", mkdirFails := none, writeFails := none,
    outcome := .rejected (some "partial out") (some "wrote 3 lines") none
      msgTO 10000,
    rmFails := none }

/-- C4 counterexample: a program that wrote to stderr before the deadline.
The timeout rejection populates `error.stderr` with that partial output, so
the catch block records it unchanged: the result's error channel is exactly
the program's own partial stderr, which contains no timeout indication at
all (in particular no occurrence of "time" in any casing, and not the
rejection message either) — refuting the claim that the error channel
surfaces the partial output plus a timeout indication. -/
theorem timeout_stderr_no_indication :
    (executeCode "while True: pass" optsPy envTO w0).fst =
      .ok { stdout := "partial out", stderr := "wrote 3 lines", exitCode := 1,
            executionTime := 10000 } ∧
    strContains "wrote 3 lines" "time" = false ∧
    strContains "wrote 3 lines" "Time" = false ∧
    strContains "wrote 3 lines" "TIME" = false ∧
    "wrote 3 lines" ≠ msgTO :=
  ⟨rfl, by decide, by decide, by decide, by decide⟩

/-- C4 (amended): on timeout `child_process.exec` kills the child and
rejects with the partial output, a null numeric code, and elapsed time at
the deadline (the hypothesis on `env.outcome` models that contract);
`executeCode` then returns — never throws — a result with non-zero exit
code 1, the partial stdout verbatim, execution time equal to the resolved
`timeoutMs`, and an error channel carrying the partial stderr when it is
non-empty (with no timeout indication added) and the rejection message only
when the partial stderr is empty. -/
theorem timeout_result_shape (c : String) (o : ExecutionOptions)
    (env : ExecEnv) (w : World) (pout perr msg : String)
    (h1 : env.mkdirFails = none) (h2 : env.writeFails = none)
    (h3 : env.outcome = .rejected (some pout) (some perr) none msg
      (jsOrNat o.timeout DEFAULT_TIMEOUT)) :
    (executeCode c o env w).fst =
      .ok { stdout := pout, stderr := if perr = "" then msg else perr,
            exitCode := 1,
            executionTime := jsOrNat o.timeout DEFAULT_TIMEOUT } := by
  rw [executeCode_ok_shape c o env w h1 h2, h3]
  simp [resultOfOutcome, jsOrStr_some_empty, jsOrStr, jsOrInt]
  exact fun h => h.symm

theorem timeout_result_shape_witness :
    (executeCode "while True: pass" optsPy envTO w0).fst =
      .ok { stdout := "partial out",
            stderr := if "wrote 3 lines" = "" then msgTO else "wrote 3 lines",
            exitCode := 1,
            executionTime := jsOrNat optsPy.timeout DEFAULT_TIMEOUT } :=
  timeout_result_shape "while True: pass" optsPy envTO w0 "partial out"
    "wrote 3 lines" msgTO rfl rfl rfl

def msgExit2 : String :=
  "Command failed: docker run --rm  -m 256m -v /tmp/code-execution/s1:/code -w /code python:3.10-alpine python code.py"

def envExit2 : ExecEnv :=
  { sessionId := "s1", mkdirFails := none, writeFails := none,
    outcome := .rejected (some "oops") (some "") (some 2) msgExit2 42,
    rmFails := none }

/-- C5 counterexample: a program that exits with status 2 after writing
nothing to stderr. The captured stderr is the empty string, but the empty
string is falsy in `error.stderr || error.message`, so the result records
the rejection message instead of the captured stderr — the streams are not
recorded verbatim. The exit code 2 itself is recorded and nothing is
thrown. -/
theorem nonzero_exit_empty_stderr_replaced :
    (executeCode "exit(2)" optsPy envExit2 w0).fst =
      .ok { stdout := "oops", stderr := msgExit2, exitCode := 2,
            executionTime := 42 } ∧
    msgExit2 ≠ "" :=
  ⟨rfl, by decide⟩

/-- C5 (amended): when the sandboxed process exits before the deadline, the
result is returned without throwing; the exit code is recorded verbatim
(0 through the fulfilled branch, any non-zero status through the rejection
branch) and stdout is recorded verbatim; stderr is recorded verbatim except
when a failing process produced an empty stderr, in which case the
rejection message is recorded in its place. -/
theorem exit_recorded_result_shape :
    (∀ (c : String) (o : ExecutionOptions) (env : ExecEnv) (w : World)
        (out err : String) (t : Nat), env.mkdirFails = none →
        env.writeFails = none → env.outcome = .resolved out err t →
        (executeCode c o env w).fst =
          .ok { stdout := out, stderr := err, exitCode := 0,
                executionTime := t }) ∧
    (∀ (c : String) (o : ExecutionOptions) (env : ExecEnv) (w : World)
        (out err msg : String) (k : Int) (t : Nat), env.mkdirFails = none →
        env.writeFails = none →
        env.outcome = .rejected (some out) (some err) (some k) msg t →
        k ≠ 0 →
        (executeCode c o env w).fst =
          .ok { stdout := out, stderr := if err = "" then msg else err,
                exitCode := k, executionTime := t }) := by
  constructor
  · intro c o env w out err t h1 h2 h3
    rw [executeCode_ok_shape c o env w h1 h2, h3]
    rfl
  · intro c o env w out err msg k t h1 h2 h3 hk
    rw [executeCode_ok_shape c o env w h1 h2, h3]
    simp [resultOfOutcome, jsOrStr_some_empty, jsOrStr, jsOrInt, hk]
    exact fun h => h.symm

theorem exit_recorded_result_shape_witness :
    (executeCode "exit(2)" optsPy envExit2 w0).fst =
      .ok { stdout := "oops", stderr := if "" = "" then msgExit2 else "",
            exitCode := 2, executionTime := 42 } :=
  exit_recorded_result_shape.2 "exit(2)" optsPy envExit2 w0 "oops" ""
    msgExit2 2 42 rfl rfl rfl (by decide)

/- ===== claim C6 : unrecognized language handling ===== -/

/-- C6 counterexample: JavaScript object-literal lookup inherits
`Object.prototype`, so for the unsupported identifier `"constructor"` the
lookup yields the truthy inherited constructor function and the `||`
fallbacks never fire: the materializer resolves the stringified function as
the extension (not `code.txt`) and the builder resolves it as image and run
command (not `alpine:latest`/`sh`) — refuting the claim that every
identifier outside the supported set falls back to the generic profile. -/
theorem proto_key_defeats_fallback :
    "constructor" ∉ supportedLanguages ∧
    sourceFilename "constructor" =
      "code.function Object() \x7b [native code] \x7d" ∧
    sourceFilename "constructor" ≠ "code.txt" ∧
    jsOrStr (LANGUAGE_IMAGES "constructor") "alpine:latest" =
      "function Object() \x7b [native code] \x7d" ∧
    jsOrStr (LANGUAGE_IMAGES "constructor") "alpine:latest" ≠ "alpine:latest" ∧
    jsOrStr (EXECUTION_COMMANDS "constructor") "sh" =
      "function Object() \x7b [native code] \x7d" ∧
    jsOrStr (EXECUTION_COMMANDS "constructor") "sh" ≠ "sh" :=
  ⟨by decide, rfl, by decide, rfl, by decide, rfl, by decide⟩

/-- C6 (amended): for every language identifier outside the supported set
that is not a property name inherited from `Object.prototype`, nothing is
rejected and the generic profile applies: the materializer resolves
`code.txt` and the builder resolves `alpine:latest` and `sh`; an
identifier naming an inherited `Object.prototype` member instead picks up
that truthy member's stringification, bypassing the `||` fallbacks. In
either case the request is not rejected: the source write (write
permitting) succeeds for every identifier whatsoever. -/
theorem unknown_nonproto_language_fallback (lang : String)
    (h : lang ∉ supportedLanguages) (hp : protoLookup lang = none) :
    sourceFilename lang = "code.txt" ∧
    jsOrStr (LANGUAGE_IMAGES lang) "alpine:latest" = "alpine:latest" ∧
    jsOrStr (EXECUTION_COMMANDS lang) "sh" = "sh" ∧
    (∀ (lang2 code dirPath : String) (env : ExecEnv) (w : World),
        env.writeFails = none →
        exOk (writeCodeToFile code dirPath lang2 env w) = true) := by
  simp only [supportedLanguages, List.mem_cons, List.not_mem_nil, or_false,
    not_or] at h
  obtain ⟨h1, h2, h3, h4, h5, h6, h7, h8, h9⟩ := h
  refine ⟨?_, ?_, ?_, ?_⟩
  · simp [sourceFilename, LANGUAGE_EXTENSIONS, jsOrStr, h1, h2, h3, h4, h5,
      h6, h7, h8, h9, hp]
  · simp [LANGUAGE_IMAGES, jsOrStr, h1, h2, h3, h4, h5, h6, h7, h8, h9, hp]
  · simp [EXECUTION_COMMANDS, jsOrStr, h1, h2, h3, h4, h5, h6, h7, h8, h9, hp]
  · intro lang2 code dirPath env w hw
    simp [writeCodeToFile, hw, exOk]

theorem unknown_nonproto_language_fallback_witness :
    sourceFilename "cobol" = "code.txt" ∧
    jsOrStr (LANGUAGE_IMAGES "cobol") "alpine:latest" = "alpine:latest" ∧
    jsOrStr (EXECUTION_COMMANDS "cobol") "sh" = "sh" ∧
    (∀ (lang2 code dirPath : String) (env : ExecEnv) (w : World),
        env.writeFails = none →
        exOk (writeCodeToFile code dirPath lang2 env w) = true) :=
  unknown_nonproto_language_fallback "cobol" (by decide) (by decide)

/- ===== claim C7 : cleanup failures swallowed and idempotent ===== -/

/-- C7: a failure of the workspace deletion step never changes the
already-computed result (the returned value is identical whether `fs.rm`
fails or succeeds), is never raised (the call still returns a well-formed
result), and deletion tolerates the directory being already absent
(`force: true` makes removal of a non-existent directory a successful
no-op). -/
theorem cleanup_failure_swallowed :
    (∀ (c : String) (o : ExecutionOptions) (env : ExecEnv) (w : World)
        (m : String),
        ((executeCode c o { env with rmFails := some m } w).fst) =
          ((executeCode c o { env with rmFails := none } w).fst)) ∧
    (∀ (c : String) (o : ExecutionOptions) (env : ExecEnv) (w : World)
        (m : String), env.mkdirFails = none → env.writeFails = none →
        exOk ((executeCode c o { env with rmFails := some m } w).fst) = true) ∧
    (∀ (w : World) (d : String), d ∉ w.dirs → fsRm w d none = .ok w) := by
  refine ⟨?_, ?_, ?_⟩
  · intro c o env w m
    rcases h1 : env.mkdirFails with _ | m1 <;>
      rcases h2 : env.writeFails with _ | m2 <;>
        simp [executeCode, createTempDir, writeCodeToFile, cleanupTempDir,
          fsRm, h1, h2]
  · intro c o env w m h1 h2
    rw [executeCode_ok_shape c o { env with rmFails := some m } w h1 h2]
    rfl
  · intro w d hd
    simp only [fsRm]
    have hf : List.filter (fun x => decide (x ≠ d)) w.dirs = w.dirs :=
      List.filter_eq_self.mpr (fun a ha => decide_eq_true (fun e => hd (e ▸ ha)))
    rw [hf]

theorem cleanup_failure_swallowed_witness :
    fsRm w0 "/tmp/code-execution/s1" none = .ok w0 :=
  cleanup_failure_swallowed.2.2 w0 "/tmp/code-execution/s1" (by decide)

/- ===== claims C8 and C9 : command flags and memory limit ===== -/

def optsInj : ExecutionOptions :=
  { timeout := none, memoryLimit := some "256m --network=none",
    networkDisabled := false, language := "python" }

/-- C8 counterexample: the `memoryLimit` option is itself interpolated into
the command, so an adversarial options value embeds the network-disabling
flag in the composed command even though `networkDisabled` is unset —
refuting the containment iff over every options value. -/
theorem network_flag_injected_via_memory_limit :
    strContains (composedCommand "print(1)" optsInj "s1") "--network=none" = true ∧
    optsInj.networkDisabled = false :=
  ⟨by decide, rfl⟩

/-- C8 (amended): for every options value whose memory limit (requested or
defaulted) and session id contain no equals sign — in particular any value
that cannot embed the flag text, which adversarial `memoryLimit` strings
can — the composed command contains `--network=none` exactly when
`networkDisabled` is set (network enabled by default when the flag is
omitted), and the command always contains the memory flag ` -m ` followed
by the requested memory limit, or the default `256m` when unset. -/
theorem network_flag_iff_option (code : String) (o : ExecutionOptions)
    (sid : String) (h1 : ('=') ∉ (memOf o).data) (h2 : ('=') ∉ sid.data) :
    (strContains (composedCommand code o sid) "--network=none" = true ↔
      o.networkDisabled = true) ∧
    strContains (composedCommand code o sid) (" -m " ++ memOf o) = true := by
  constructor
  · constructor
    · intro hcon
      by_contra hb
      have hb2 : o.networkDisabled = false := by
        revert hb; cases o.networkDisabled <;> simp
      exact (eqchar_not_in_command code o sid h1 h2 hb2)
        (isSub_mem hcon (by decide))
    · intro hnd
      refine strContains_of_data (("docker run --rm ").data)
        ((" -m " ++ memOf o ++ cmdAfterMem o sid).data) ?_
      rw [composedCommand_split]
      simp [String.data_append, List.append_assoc, netFlagOf, hnd]
  · refine strContains_of_data (("docker run --rm " ++ netFlagOf o).data)
      ((cmdAfterMem o sid).data) ?_
    rw [composedCommand_split]
    simp [String.data_append, List.append_assoc]

theorem network_flag_iff_option_witness :
    ((strContains (composedCommand "print(1)" optsPy "s1") "--network=none" = true ↔
      optsPy.networkDisabled = true) ∧
    strContains (composedCommand "print(1)" optsPy "s1") (" -m " ++ memOf optsPy) = true) :=
  network_flag_iff_option "print(1)" optsPy "s1" (by decide) (by decide)

def optsMem : ExecutionOptions :=
  { timeout := none, memoryLimit := some "512m", networkDisabled := false,
    language := "python" }

/-- C9: every non-empty caller-supplied `memoryLimit` string is
interpolated verbatim into the single shell command: the string handed to
the shell by `executeCode` is the composed command, and that command
contains the raw `memoryLimit` value as a substring. -/
theorem memory_limit_interpolated (c : String) (o : ExecutionOptions)
    (env : ExecEnv) (w : World) (s : String) (h1 : env.mkdirFails = none)
    (h2 : env.writeFails = none) (hs : o.memoryLimit = some s)
    (hne : s ≠ "") :
    ((executeCode c o env w).snd).launched =
      w.launched ++ [composedCommand c o env.sessionId] ∧
    strContains (composedCommand c o env.sessionId) s = true := by
  constructor
  · rw [executeCode_ok_shape c o env w h1 h2]
    rcases h3 : env.rmFails with _ | m <;> simp [cleanupTempDir, fsRm, h3]
  · have hmem : memOf o = s := by simp [memOf, jsOrStr, hs, hne]
    refine strContains_of_data
      (("docker run --rm " ++ netFlagOf o ++ " -m ").data)
      ((cmdAfterMem o env.sessionId).data) ?_
    rw [composedCommand_split, hmem]
    simp [String.data_append, List.append_assoc]

theorem memory_limit_interpolated_witness :
    ((executeCode "print(1)" optsMem envOk w0).snd).launched =
      w0.launched ++ [composedCommand "print(1)" optsMem envOk.sessionId] ∧
    strContains (composedCommand "print(1)" optsMem envOk.sessionId) "512m" = true :=
  memory_limit_interpolated "print(1)" optsMem envOk w0 "512m" rfl rfl rfl
    (by decide)

/- ===== WebSocketService : state, association maps and handlers ===== -/

/-- `interface User`. -/
structure WSUser where
  id : String
  username : String
  room : String
  deriving Repr, DecidableEq

/-- `interface Message`. -/
structure WSMessage where
  user : String
  text : String
  timestamp : Nat
  deriving Repr, DecidableEq

/-- `interface CodeChange` (the `any` change payload is carried opaquely
as a string). -/
structure WSCodeChange where
  user : String
  change : String
  timestamp : Nat
  deriving Repr, DecidableEq

/-- JS `Map.set`: replace the binding in place or append a fresh one. -/
def setA {α : Type} (k : String) (v : α) :
    List (String × α) → List (String × α)
  | [] => [(k, v)]
  | p :: t => if p.1 = k then (k, v) :: t else p :: setA k v t

/-- JS `Map.get`. -/
def getA {α : Type} (k : String) : List (String × α) → Option α
  | [] => none
  | p :: t => if p.1 = k then some p.2 else getA k t

/-- JS `Map.delete`. -/
def eraseA {α : Type} (k : String) (m : List (String × α)) :
    List (String × α) :=
  m.filter (fun p => decide (p.1 ≠ k))

/-- The key list of a map. -/
def keysA {α : Type} (m : List (String × α)) : List String :=
  m.map (fun p => p.1)

/-- JS `Set.add` (insertion order preserved, no duplicates). -/
def addS (x : String) (s : List String) : List String :=
  if x ∈ s then s else s ++ [x]

/-- JS `Set.delete`. -/
def delS (x : String) (s : List String) : List String :=
  s.filter (fun y => decide (y ≠ x))

/-- The four mutable maps of `WebSocketService`: users by socket id, and
the three room-keyed tables — member sets, code-change history and chat
history. -/
structure WSState where
  users : List (String × WSUser)
  rooms : List (String × List String)
  roomHistory : List (String × List WSCodeChange)
  roomMessages : List (String × List WSMessage)
  deriving Repr, DecidableEq

def initWS : WSState :=
  { users := [], rooms := [], roomHistory := [], roomMessages := [] }

/-- `handleJoin`: record the user, create the three room entries together
when the room is new (`new Set()` then `.add`), and add the socket id to
the room's member set. -/
def handleJoin (sid un rm : String) (s : WSState) : WSState :=
  match getA rm s.rooms with
  | some mem =>
    { users := setA sid ⟨sid, un, rm⟩ s.users,
      rooms := setA rm (addS sid mem) s.rooms,
      roomHistory := s.roomHistory,
      roomMessages := s.roomMessages }
  | none =>
    { users := setA sid ⟨sid, un, rm⟩ s.users,
      rooms := setA rm (addS sid []) (setA rm [] s.rooms),
      roomHistory := setA rm [] s.roomHistory,
      roomMessages := setA rm [] s.roomMessages }

/-- `handleCodeChange`: ignore unknown sockets, else append the change to
the sender's room history. -/
def handleCodeChange (sid change : String) (ts : Nat) (s : WSState) :
    WSState :=
  match getA sid s.users with
  | none => s
  | some u =>
    { s with
      roomHistory := setA u.room ((getA u.room s.roomHistory).getD [] ++
                       [⟨u.username, change, ts⟩]) s.roomHistory }

/-- `handleMessage`: ignore unknown sockets, else append the chat message
to the sender's room messages. -/
def handleMessage (sid text : String) (ts : Nat) (s : WSState) : WSState :=
  match getA sid s.users with
  | none => s
  | some u =>
    { s with
      roomMessages := setA u.room ((getA u.room s.roomMessages).getD [] ++
                        [⟨u.username, text, ts⟩]) s.roomMessages }

/-- `handleCursorUpdate`: broadcast only, no table is touched. -/
def handleCursorUpdate (sid : String) (s : WSState) : WSState :=
  match getA sid s.users with
  | none => s
  | some _ => s

/-- `handleDisconnect`: remove the socket from its room's member set; when
the set empties, delete all three room entries together; finally remove
the user record. -/
def handleDisconnect (sid : String) (s : WSState) : WSState :=
  match getA sid s.users with
  | none => s
  | some u =>
    match getA u.room s.rooms with
    | none => { s with users := eraseA sid s.users }
    | some mem =>
      let mem2 := delS sid mem
      if mem2.isEmpty then
        { users := eraseA sid s.users,
          rooms := eraseA u.room s.rooms,
          roomHistory := eraseA u.room s.roomHistory,
          roomMessages := eraseA u.room s.roomMessages }
      else
        { users := eraseA sid s.users,
          rooms := setA u.room mem2 s.rooms,
          roomHistory := s.roomHistory,
          roomMessages := s.roomMessages }

/-- `createRoom`: insert the three room entries together for a generated
room id. -/
def createRoom (rid : String) (s : WSState) : WSState :=
  { s with
    rooms := setA rid [] s.rooms,
    roomHistory := setA rid [] s.roomHistory,
    roomMessages := setA rid [] s.roomMessages }

/-- The socket events dispatched by `setupSocketHandlers`, plus the public
`createRoom` entry point. -/
inductive WSEvent where
  | join (sid un rm : String)
  | codeChange (sid change : String) (ts : Nat)
  | chat (sid text : String) (ts : Nat)
  | cursor (sid : String)
  | disconnect (sid : String)
  | create (rid : String)
  deriving Repr, DecidableEq

def stepWS (s : WSState) : WSEvent → WSState
  | .join sid un rm => handleJoin sid un rm s
  | .codeChange sid ch ts => handleCodeChange sid ch ts s
  | .chat sid tx ts => handleMessage sid tx ts s
  | .cursor sid => handleCursorUpdate sid s
  | .disconnect sid => handleDisconnect sid s
  | .create rid => createRoom rid s

def runWS (s : WSState) : List WSEvent → WSState
  | [] => s
  | e :: t => runWS (stepWS s e) t

/-- Freshness of generated uuids: the id handed to `createRoom` does not
collide with an existing room key (the uuidv4 contract the code relies
on). All socket events are unrestricted. -/
def freshOk (s : WSState) : WSEvent → Bool
  | .create rid => (getA rid s.rooms).isNone
  | _ => true

def freshRun (s : WSState) : List WSEvent → Bool
  | [] => true
  | e :: t => freshOk s e && freshRun (stepWS s e) t

/-- The three room-keyed tables carry exactly the same keys. -/
def keySync (s : WSState) : Prop :=
  keysA s.rooms = keysA s.roomHistory ∧
    keysA s.rooms = keysA s.roomMessages

/-- Auxiliary invariant: every tracked user's room exists and its member
set contains the user's socket id. -/
def wfUsers (s : WSState) : Prop :=
  ∀ p ∈ s.users, ∃ mem, getA p.2.room s.rooms = some mem ∧ p.1 ∈ mem

def InvWS (s : WSState) : Prop := keySync s ∧ wfUsers s

/- ===== association map lemmas ===== -/

theorem getA_setA_self {α : Type} (k : String) (v : α)
    (m : List (String × α)) : getA k (setA k v m) = some v := by
  induction m with
  | nil => simp [setA, getA]
  | cons p t ih => by_cases h : p.1 = k <;> simp [setA, getA, h, ih]

theorem keysA_nil {α : Type} : keysA ([] : List (String × α)) = [] := rfl

theorem keysA_cons {α : Type} (p : String × α) (t : List (String × α)) :
    keysA (p :: t) = p.1 :: keysA t := rfl

theorem getA_setA_ne {α : Type} {k k2 : String} (hne : k2 ≠ k) (v : α)
    (m : List (String × α)) : getA k2 (setA k v m) = getA k2 m := by
  induction m with
  | nil => simp [setA, getA, Ne.symm hne]
  | cons p t ih =>
    by_cases h : p.1 = k
    · simp [setA, getA, h, Ne.symm hne]
    · simp [setA, getA, h, ih]

theorem mem_keysA_of_getA {α : Type} {k : String} {m : List (String × α)}
    {v : α} (h : getA k m = some v) : k ∈ keysA m := by
  induction m with
  | nil => simp [getA] at h
  | cons p t ih =>
    by_cases hp : p.1 = k
    · simp [keysA, hp]
    · simp only [getA, hp, if_false] at h
      exact List.mem_cons_of_mem _ (ih h)

theorem not_mem_keysA_of_getA_none {α : Type} {k : String}
    {m : List (String × α)} (h : getA k m = none) : k ∉ keysA m := by
  induction m with
  | nil => simp [keysA]
  | cons p t ih =>
    by_cases hp : p.1 = k
    · simp [getA, hp] at h
    · simp only [getA, hp, if_false] at h
      intro hk
      simp only [keysA, List.map_cons, List.mem_cons] at hk
      rcases hk with e | hk2
      · exact hp e.symm
      · exact ih h hk2

theorem keysA_setA_mem {α : Type} {k : String} (v : α)
    {m : List (String × α)} (h : k ∈ keysA m) :
    keysA (setA k v m) = keysA m := by
  induction m with
  | nil => simp [keysA] at h
  | cons p t ih =>
    by_cases hp : p.1 = k
    · simp [setA, hp, keysA]
    · have h2 : k ∈ keysA t := by
        simp only [keysA, List.map_cons, List.mem_cons] at h
        rcases h with e | h2
        · exact absurd e.symm hp
        · exact h2
      simp [setA, hp, keysA_cons, ih h2]

theorem keysA_setA_not_mem {α : Type} {k : String} (v : α)
    {m : List (String × α)} (h : k ∉ keysA m) :
    keysA (setA k v m) = keysA m ++ [k] := by
  induction m with
  | nil => simp [setA, keysA]
  | cons p t ih =>
    have hp : p.1 ≠ k := fun e => h (by simp [keysA, e])
    have h2 : k ∉ keysA t := fun e =>
      h (by simp only [keysA, List.map_cons, List.mem_cons]
            exact Or.inr e)
    simp [setA, hp, keysA_cons, ih h2]

theorem keysA_eraseA {α : Type} (k : String) (m : List (String × α)) :
    keysA (eraseA k m) = (keysA m).filter (fun x => decide (x ≠ k)) := by
  induction m with
  | nil => simp [eraseA, keysA]
  | cons p t ih =>
    by_cases hp : p.1 = k <;>
      simp [eraseA, keysA, List.filter_cons, hp, ih, eraseA] <;>
        simpa [eraseA, keysA] using ih

theorem mem_eraseA {α : Type} {p : String × α} {k : String}
    {m : List (String × α)} : p ∈ eraseA k m ↔ p ∈ m ∧ p.1 ≠ k := by
  simp [eraseA, List.mem_filter]

theorem eraseA_cons_self {α : Type} {p : String × α} {k : String}
    (hp : p.1 = k) (t : List (String × α)) :
    eraseA k (p :: t) = eraseA k t := by
  simp [eraseA, List.filter_cons, hp]

theorem eraseA_cons_ne {α : Type} {p : String × α} {k : String}
    (hp : p.1 ≠ k) (t : List (String × α)) :
    eraseA k (p :: t) = p :: eraseA k t := by
  simp [eraseA, List.filter_cons, hp]

theorem getA_eraseA_ne {α : Type} {k k2 : String} (h : k2 ≠ k)
    (m : List (String × α)) : getA k2 (eraseA k m) = getA k2 m := by
  induction m with
  | nil => simp [eraseA]
  | cons p t ih =>
    by_cases hp : p.1 = k
    · rw [eraseA_cons_self hp, ih]
      simp [getA, show p.1 ≠ k2 from fun e => h (e ▸ hp)]
    · rw [eraseA_cons_ne hp]
      by_cases hp2 : p.1 = k2 <;> simp [getA, hp2, ih]

theorem mem_setA {α : Type} {p : String × α} {k : String} {v : α}
    {m : List (String × α)} (h : p ∈ setA k v m) : p = (k, v) ∨ p ∈ m := by
  induction m with
  | nil => simpa [setA] using h
  | cons q t ih =>
    by_cases hq : q.1 = k
    · simp only [setA, hq, if_true] at h
      rcases List.mem_cons.mp h with e | h2
      · exact Or.inl e
      · exact Or.inr (List.mem_cons_of_mem _ h2)
    · simp only [setA, hq, if_false] at h
      rcases List.mem_cons.mp h with e | h2
      · exact Or.inr (e ▸ List.mem_cons_self _ _)
      · rcases ih h2 with e | h3
        · exact Or.inl e
        · exact Or.inr (List.mem_cons_of_mem _ h3)

theorem mem_addS_self (x : String) (s : List String) : x ∈ addS x s := by
  by_cases h : x ∈ s <;> simp [addS, h]

theorem mem_addS_of_mem {y : String} {s : List String} (x : String)
    (h : y ∈ s) : y ∈ addS x s := by
  by_cases hx : x ∈ s <;> simp [addS, hx, h]

theorem mem_delS {y x : String} {s : List String} :
    y ∈ delS x s ↔ y ∈ s ∧ y ≠ x := by
  simp [delS, List.mem_filter]

/- ===== handler equation lemmas ===== -/

theorem getA_mem {α : Type} {k : String} {m : List (String × α)} {v : α}
    (h : getA k m = some v) : (k, v) ∈ m := by
  induction m with
  | nil => simp [getA] at h
  | cons p t ih =>
    rcases p with ⟨a, b⟩
    by_cases hp : a = k
    · subst hp
      simp [getA] at h
      subst h
      exact List.mem_cons_self _ _
    · simp only [getA, hp, if_false] at h
      exact List.mem_cons_of_mem _ (ih h)

theorem handleJoin_some (sid un rm : String) (s : WSState)
    (mem : List String) (hp : getA rm s.rooms = some mem) :
    handleJoin sid un rm s =
      { users := setA sid ⟨sid, un, rm⟩ s.users,
        rooms := setA rm (addS sid mem) s.rooms,
        roomHistory := s.roomHistory,
        roomMessages := s.roomMessages } := by
  unfold handleJoin
  rw [hp]

theorem handleJoin_none (sid un rm : String) (s : WSState)
    (hp : getA rm s.rooms = none) :
    handleJoin sid un rm s =
      { users := setA sid ⟨sid, un, rm⟩ s.users,
        rooms := setA rm (addS sid []) (setA rm [] s.rooms),
        roomHistory := setA rm [] s.roomHistory,
        roomMessages := setA rm [] s.roomMessages } := by
  unfold handleJoin
  rw [hp]

theorem handleCodeChange_none (sid ch : String) (ts : Nat) (s : WSState)
    (hu : getA sid s.users = none) : handleCodeChange sid ch ts s = s := by
  unfold handleCodeChange
  rw [hu]

theorem handleCodeChange_some (sid ch : String) (ts : Nat) (s : WSState)
    (u : WSUser) (hu : getA sid s.users = some u) :
    handleCodeChange sid ch ts s =
      { s with
        roomHistory := setA u.room ((getA u.room s.roomHistory).getD [] ++
                         [⟨u.username, ch, ts⟩]) s.roomHistory } := by
  unfold handleCodeChange
  rw [hu]

theorem handleMessage_none (sid tx : String) (ts : Nat) (s : WSState)
    (hu : getA sid s.users = none) : handleMessage sid tx ts s = s := by
  unfold handleMessage
  rw [hu]

theorem handleMessage_some (sid tx : String) (ts : Nat) (s : WSState)
    (u : WSUser) (hu : getA sid s.users = some u) :
    handleMessage sid tx ts s =
      { s with
        roomMessages := setA u.room ((getA u.room s.roomMessages).getD [] ++
                          [⟨u.username, tx, ts⟩]) s.roomMessages } := by
  unfold handleMessage
  rw [hu]

theorem handleCursorUpdate_eq (sid : String) (s : WSState) :
    handleCursorUpdate sid s = s := by
  unfold handleCursorUpdate
  rcases hu : getA sid s.users with _ | u <;> rfl

theorem handleDisconnect_none (sid : String) (s : WSState)
    (hu : getA sid s.users = none) : handleDisconnect sid s = s := by
  unfold handleDisconnect
  rw [hu]

theorem handleDisconnect_some_none (sid : String) (s : WSState) (u : WSUser)
    (hu : getA sid s.users = some u) (hr : getA u.room s.rooms = none) :
    handleDisconnect sid s = { s with users := eraseA sid s.users } := by
  simp only [handleDisconnect, hu, hr]

theorem handleDisconnect_some_some (sid : String) (s : WSState) (u : WSUser)
    (mem : List String) (hu : getA sid s.users = some u)
    (hr : getA u.room s.rooms = some mem) :
    handleDisconnect sid s =
      if (delS sid mem).isEmpty then
        { users := eraseA sid s.users,
          rooms := eraseA u.room s.rooms,
          roomHistory := eraseA u.room s.roomHistory,
          roomMessages := eraseA u.room s.roomMessages }
      else
        { users := eraseA sid s.users,
          rooms := setA u.room (delS sid mem) s.rooms,
          roomHistory := s.roomHistory,
          roomMessages := s.roomMessages } := by
  simp only [handleDisconnect, hu, hr]

/- ===== invariant preservation ===== -/

theorem invWS_join (sid un rm : String) {s : WSState} (hs : InvWS s) :
    InvWS (handleJoin sid un rm s) := by
  obtain ⟨⟨hk1, hk2⟩, hw⟩ := hs
  rcases hp : getA rm s.rooms with _ | mem0
  · rw [handleJoin_none sid un rm s hp]
    have hnotmem : rm ∉ keysA s.rooms := not_mem_keysA_of_getA_none hp
    have hkeys0 : keysA (setA rm ([] : List String) s.rooms) =
        keysA s.rooms ++ [rm] := keysA_setA_not_mem _ hnotmem
    have hmemk : rm ∈ keysA (setA rm ([] : List String) s.rooms) := by
      rw [hkeys0]; simp
    refine ⟨⟨?_, ?_⟩, ?_⟩
    · rw [keysA_setA_mem _ hmemk, hkeys0,
        keysA_setA_not_mem _ (hk1 ▸ hnotmem), hk1]
    · rw [keysA_setA_mem _ hmemk, hkeys0,
        keysA_setA_not_mem _ (hk2 ▸ hnotmem), hk2]
    · intro p hpt
      rcases mem_setA hpt with e | hold
      · subst e
        exact ⟨addS sid [], getA_setA_self _ _ _, mem_addS_self _ _⟩
      · obtain ⟨memp, hgp, hmp⟩ := hw p hold
        by_cases hroom : p.2.room = rm
        · rw [hroom, hp] at hgp
          cases hgp
        · refine ⟨memp, ?_, hmp⟩
          rw [getA_setA_ne hroom, getA_setA_ne hroom]
          exact hgp
  · rw [handleJoin_some sid un rm s mem0 hp]
    have hmemk : rm ∈ keysA s.rooms := mem_keysA_of_getA hp
    refine ⟨⟨?_, ?_⟩, ?_⟩
    · rw [keysA_setA_mem _ hmemk]; exact hk1
    · rw [keysA_setA_mem _ hmemk]; exact hk2
    · intro p hpt
      rcases mem_setA hpt with e | hold
      · subst e
        exact ⟨addS sid mem0, getA_setA_self _ _ _, mem_addS_self _ _⟩
      · obtain ⟨memp, hgp, hmp⟩ := hw p hold
        by_cases hroom : p.2.room = rm
        · rw [hroom, hp] at hgp
          injection hgp with e2
          refine ⟨addS sid mem0, ?_, ?_⟩
          · rw [hroom]; exact getA_setA_self _ _ _
          · exact mem_addS_of_mem _ (e2 ▸ hmp)
        · refine ⟨memp, ?_, hmp⟩
          rw [getA_setA_ne hroom]
          exact hgp

theorem invWS_codeChange (sid ch : String) (ts : Nat) {s : WSState}
    (hs : InvWS s) : InvWS (handleCodeChange sid ch ts s) := by
  obtain ⟨⟨hk1, hk2⟩, hw⟩ := hs
  rcases hu : getA sid s.users with _ | u
  · rw [handleCodeChange_none sid ch ts s hu]
    exact ⟨⟨hk1, hk2⟩, hw⟩
  · rw [handleCodeChange_some sid ch ts s u hu]
    obtain ⟨memu, hgu, _⟩ := hw (sid, u) (getA_mem hu)
    have hkh : u.room ∈ keysA s.roomHistory :=
      hk1 ▸ mem_keysA_of_getA hgu
    refine ⟨⟨?_, ?_⟩, ?_⟩
    · rw [keysA_setA_mem _ hkh]; exact hk1
    · exact hk2
    · exact hw

theorem invWS_chat (sid tx : String) (ts : Nat) {s : WSState}
    (hs : InvWS s) : InvWS (handleMessage sid tx ts s) := by
  obtain ⟨⟨hk1, hk2⟩, hw⟩ := hs
  rcases hu : getA sid s.users with _ | u
  · rw [handleMessage_none sid tx ts s hu]
    exact ⟨⟨hk1, hk2⟩, hw⟩
  · rw [handleMessage_some sid tx ts s u hu]
    obtain ⟨memu, hgu, _⟩ := hw (sid, u) (getA_mem hu)
    have hkm : u.room ∈ keysA s.roomMessages :=
      hk2 ▸ mem_keysA_of_getA hgu
    refine ⟨⟨?_, ?_⟩, ?_⟩
    · exact hk1
    · rw [keysA_setA_mem _ hkm]; exact hk2
    · exact hw

theorem invWS_disconnect (sid : String) {s : WSState} (hs : InvWS s) :
    InvWS (handleDisconnect sid s) := by
  obtain ⟨⟨hk1, hk2⟩, hw⟩ := hs
  rcases hu : getA sid s.users with _ | u
  · rw [handleDisconnect_none sid s hu]
    exact ⟨⟨hk1, hk2⟩, hw⟩
  · rcases hr : getA u.room s.rooms with _ | mem
    · rw [handleDisconnect_some_none sid s u hu hr]
      refine ⟨⟨hk1, hk2⟩, ?_⟩
      intro p hpt
      exact hw p (mem_eraseA.mp hpt).1
    · rw [handleDisconnect_some_some sid s u mem hu hr]
      rcases hdm : delS sid mem with _ | ⟨x, xs⟩
      · simp only [List.isEmpty_nil, if_true]
        refine ⟨⟨?_, ?_⟩, ?_⟩
        · rw [keysA_eraseA, keysA_eraseA, hk1]
        · rw [keysA_eraseA, keysA_eraseA, hk2]
        · intro p hpt
          obtain ⟨hpin, hpne⟩ := mem_eraseA.mp hpt
          obtain ⟨memp, hgp, hmp⟩ := hw p hpin
          by_cases hroom : p.2.room = u.room
          · exfalso
            rw [hroom, hr] at hgp
            injection hgp with e2
            have hin : p.1 ∈ delS sid mem :=
              mem_delS.mpr ⟨e2 ▸ hmp, hpne⟩
            rw [hdm] at hin
            cases hin
          · refine ⟨memp, ?_, hmp⟩
            rw [getA_eraseA_ne hroom]
            exact hgp
      · simp only [List.isEmpty_cons, if_false, Bool.false_eq_true]
        have hmemk : u.room ∈ keysA s.rooms := mem_keysA_of_getA hr
        refine ⟨⟨?_, ?_⟩, ?_⟩
        · rw [keysA_setA_mem _ hmemk]; exact hk1
        · rw [keysA_setA_mem _ hmemk]; exact hk2
        · intro p hpt
          obtain ⟨hpin, hpne⟩ := mem_eraseA.mp hpt
          obtain ⟨memp, hgp, hmp⟩ := hw p hpin
          by_cases hroom : p.2.room = u.room
          · rw [hroom, hr] at hgp
            injection hgp with e2
            refine ⟨x :: xs, ?_, ?_⟩
            · rw [hroom]; exact getA_setA_self _ _ _
            · rw [← hdm]
              exact mem_delS.mpr ⟨e2 ▸ hmp, hpne⟩
          · refine ⟨memp, ?_, hmp⟩
            rw [getA_setA_ne hroom]
            exact hgp

theorem invWS_create (rid : String) {s : WSState} (hs : InvWS s)
    (hfresh : getA rid s.rooms = none) : InvWS (createRoom rid s) := by
  obtain ⟨⟨hk1, hk2⟩, hw⟩ := hs
  have hnot : rid ∉ keysA s.rooms := not_mem_keysA_of_getA_none hfresh
  refine ⟨⟨?_, ?_⟩, ?_⟩
  · simp only [createRoom]
    rw [keysA_setA_not_mem _ hnot, keysA_setA_not_mem _ (hk1 ▸ hnot), hk1]
  · simp only [createRoom]
    rw [keysA_setA_not_mem _ hnot, keysA_setA_not_mem _ (hk2 ▸ hnot), hk2]
  · intro p hpt
    obtain ⟨memp, hgp, hmp⟩ := hw p hpt
    by_cases hroom : p.2.room = rid
    · rw [hroom, hfresh] at hgp
      cases hgp
    · refine ⟨memp, ?_, hmp⟩
      simp only [createRoom]
      rw [getA_setA_ne hroom]
      exact hgp

/-- One dispatched event preserves the invariant, under uuid freshness of
generated room ids. -/
theorem invWS_step (s : WSState) (e : WSEvent) (hs : InvWS s)
    (hf : freshOk s e = true) : InvWS (stepWS s e) := by
  cases e with
  | join sid un rm => exact invWS_join sid un rm hs
  | codeChange sid ch ts => exact invWS_codeChange sid ch ts hs
  | chat sid tx ts => exact invWS_chat sid tx ts hs
  | cursor sid =>
    rw [show stepWS s (.cursor sid) = handleCursorUpdate sid s from rfl,
      handleCursorUpdate_eq]
    exact hs
  | disconnect sid => exact invWS_disconnect sid hs
  | create rid =>
    exact invWS_create rid hs
      (Option.isNone_iff_eq_none.mp (by simpa [freshOk] using hf))

theorem invWS_run (evs : List WSEvent) : ∀ (s : WSState), InvWS s →
    freshRun s evs = true → InvWS (runWS s evs) := by
  induction evs with
  | nil => intro s hs _; exact hs
  | cons e t ih =>
    intro s hs hf
    simp only [freshRun, Bool.and_eq_true] at hf
    exact ih (stepWS s e) (invWS_step s e hs hf.1) hf.2

/- ===== claim C10 : the three room tables stay key-synchronised ===== -/

/-- C10: starting from the empty service state, after any sequence of
socket events (join, code change, chat, cursor, disconnect) and
`createRoom` calls — the latter with fresh generated room ids, which is the
uuidv4 contract the code relies on — the three room-keyed tables (member
sets, code-change history, chat history) have exactly the same key list:
every operation creates or deletes entries in the three tables together. -/
theorem room_tables_key_sync (evs : List WSEvent)
    (hf : freshRun initWS evs = true) :
    keysA (runWS initWS evs).rooms = keysA (runWS initWS evs).roomHistory ∧
    keysA (runWS initWS evs).rooms = keysA (runWS initWS evs).roomMessages :=
  (invWS_run evs initWS ⟨⟨rfl, rfl⟩, by intro p hp; cases hp⟩ hf).1

def demoEvents : List WSEvent :=
  [.join "a" "alice" "r1", .join "b" "bob" "r1", .create "r2",
   .codeChange "a" "insert line" 5, .chat "b" "hi" 6, .cursor "a",
   .disconnect "a", .disconnect "b"]

theorem room_tables_key_sync_witness :
    keysA (runWS initWS demoEvents).rooms =
      keysA (runWS initWS demoEvents).roomHistory ∧
    keysA (runWS initWS demoEvents).rooms =
      keysA (runWS initWS demoEvents).roomMessages :=
  room_tables_key_sync demoEvents (by decide)
